import Mathlib

/-!
Verification of the way-snap editing engine of the `ol-osmwaysnap` interaction.

The development shallowly embeds the TypeScript sources:
  * `src/utils/line-string.ts` (`LineStringUtils`): polyline splitting and
    shortest arc selection on closed loops;
  * `src/interaction.ts` (`OSMWaySnap`): the session state machine driving
    sketching, edit-mode entry, candidate computation and finishing.

Coordinates are modelled as pairs of integers: the original compares
coordinates with exact `===` and only ever subtracts, multiplies and compares
them (it never divides), so the whole engine is uniform over any linearly
ordered commutative ring and `ℤ` keeps every definition executable and every
predicate decidable.  Euclidean lengths are real numbers.  Features carry a
natural-number identifier standing in for JavaScript object identity
(`VectorSource.hasFeature` / `removeFeature` compare object identity).
-/

namespace WaySnap

/-- A coordinate, `[x, y]` in the source. -/
abbrev Coord : Type := ℤ × ℤ

/-- Default coordinate used to model out-of-range JavaScript array access
(`coordinates[i]` on an empty geometry); all modelled flows only evaluate it
on in-range indices. -/
def dfl : Coord := (0, 0)

/-- Models `new LineString([a, b]).intersectsCoordinate(p)` for one segment:
OpenLayers' `SimpleGeometry.containsXY` computes the closest point of the
geometry and compares it to `p` with exact equality, which for a single
segment holds exactly when `p` is collinear with `a, b` and lies inside the
segment's bounding span. -/
def segOn (a b p : Coord) : Bool :=
  decide ((b.1 - a.1) * (p.2 - a.2) - (b.2 - a.2) * (p.1 - a.1) = 0
    ∧ min a.1 b.1 ≤ p.1 ∧ p.1 ≤ max a.1 b.1
    ∧ min a.2 b.2 ≤ p.2 ∧ p.2 ≤ max a.2 b.2)

/-- Models `lineString.containsXY(x, y)` / `geometry.intersectsCoordinate(p)`
on a whole `LineString`: `p` lies on some segment of the polyline (for a
one-point geometry: equals that point). -/
def lineContains (l : List Coord) (p : Coord) : Bool :=
  match l with
  | [] => false
  | [a] => decide (p = a)
  | a :: b :: rest => segOn a b p || lineContains (b :: rest) p

/-- Models `Array.prototype.findIndex` with an equality predicate: first index
of `c`, `-1` if absent. -/
def findIdxInt (l : List Coord) (c : Coord) : Int :=
  match l.findIdx? (fun v => decide (v = c)) with
  | some i => Int.ofNat i
  | none => -1

/-- Models `Array.prototype.slice(start)` for a possibly negative `start`
(JavaScript clamps `length + start` at `0`). -/
def jsSliceFrom (l : List Coord) (start : Int) : List Coord :=
  if start < 0 then l.drop ((Int.ofNat l.length + start).toNat)
  else l.drop start.toNat

namespace LineStringUtils

/-- Loop of `LineStringUtils.getSplitIndex` (`for (let i = 1; ...)`):
`prev` is `coordinates[i-1]` and `rest` the coordinates from position `i`. -/
def getSplitIndexAux (prev : Coord) (rest : List Coord) (c : Coord) (i : Nat) : Int :=
  match rest with
  | [] => -1
  | x :: xs =>
    if x = c then -1
    else if segOn prev x c then Int.ofNat i
    else getSplitIndexAux x xs c (i + 1)

/-- `LineStringUtils.getSplitIndex`: index before which `c` is to be inserted,
`-1` when `c` is the first vertex, is reached as a vertex before any
containing segment, or lies on no segment. -/
def getSplitIndex (l : List Coord) (c : Coord) : Int :=
  match l with
  | [] => -1
  | x :: xs => if x = c then -1 else getSplitIndexAux x xs c 1

/-- `LineStringUtils.split`: insert `c` at the split index when one exists. -/
def split (l : List Coord) (c : Coord) : List Coord :=
  let idx := getSplitIndex l c
  if idx < 0 then l
  else l.take idx.toNat ++ c :: l.drop idx.toNat

/-- `LineStringUtils.getLoopTravelIndices`: indices visited travelling a loop
of `length` coordinates from `fromIdx` up to `toIdx` inclusively, wrapping
past the seam (the seam vertex `0` is skipped on wrap since it coincides with
vertex `length - 1`). -/
def getLoopTravelIndices (length fromIdx toIdx : Nat) : List Nat :=
  if fromIdx < toIdx then (List.range (toIdx - fromIdx + 1)).map (fun i => fromIdx + i)
  else (List.range (length - fromIdx)).map (fun i => fromIdx + i)
    ++ (List.range toIdx).map (fun i => i + 1)

/-- Euclidean distance of two coordinates, as used by
`ol/geom/LineString.getLength`. -/
noncomputable def dist (p q : Coord) : ℝ :=
  Real.sqrt (((p.1 - q.1 : ℤ) : ℝ) ^ 2 + ((p.2 - q.2 : ℤ) : ℝ) ^ 2)

/-- `lineString.getLength()`: cumulative Euclidean length. -/
noncomputable def getLength : List Coord → ℝ
  | a :: b :: rest => dist a b + getLength (b :: rest)
  | _ => 0

/-- The forward walk built by `getShorterPathOnLoop`
(`forwardCoorsIndices.map(i => lineString.getCoordinates()[i])`). -/
def walkF (l : List Coord) (fromIdx toIdx : Nat) : List Coord :=
  (getLoopTravelIndices l.length fromIdx toIdx).map (fun i => l.getD i dfl)

/-- The backward walk built by `getShorterPathOnLoop`
(`getLoopTravelIndices(..., toIdx, fromIdx).reverse()` then mapped to
coordinates). -/
def walkR (l : List Coord) (fromIdx toIdx : Nat) : List Coord :=
  ((getLoopTravelIndices l.length toIdx fromIdx).reverse).map (fun i => l.getD i dfl)

/-- `LineStringUtils.getShorterPathOnLoop`: the forward walk when it is
strictly shorter than the backward walk, the backward walk otherwise. -/
noncomputable def getShorterPathOnLoop (l : List Coord) (fromIdx toIdx : Nat) : List Coord :=
  if fromIdx = toIdx then []
  else if getLength (walkF l fromIdx toIdx) < getLength (walkR l fromIdx toIdx)
    then walkF l fromIdx toIdx
    else walkR l fromIdx toIdx

end LineStringUtils

open LineStringUtils

/-- A vector feature with a `LineString` geometry; `fid` models JavaScript
object identity (`VectorSource.hasFeature` / `removeFeature`). -/
structure WayFeature where
  fid : Nat
  geom : List Coord
deriving DecidableEq, Repr

/-- The mutable fields of the `OSMWaySnap` interaction that the session state
machine reads and writes, plus its collaborators: `source` (target collection
of edited features), `waySource` (snapping network, also holding the staged
draft feature), a `hasMap` flag, and `fitCount` counting the
`map.getView().fit(...)` calls so that viewport effects are observable. -/
structure SnapState where
  allowEdit : Bool
  allowCreate : Bool
  autoFocus : Bool
  hasMap : Bool
  coordinates : List Coord
  activeFeature : Option WayFeature
  sketchPoint : Option Coord
  sketchLine : Option (List Coord)
  draftOriginalLine : Option WayFeature
  candidateLines : List WayFeature
  candidatePoints : List Coord
  merging : Bool
  source : List WayFeature
  waySource : List WayFeature
  nextId : Nat
  fitCount : Nat
deriving DecidableEq, Repr

namespace OSMWaySnap

/-- Geometry of the active feature (`this.activeFeature!.getGeometry()!`),
empty when no feature is active. -/
def activeGeom (st : SnapState) : List Coord :=
  match st.activeFeature with
  | some f => f.geom
  | none => []

/-- `this.activeFeature!.getGeometry()!.getLastCoordinate()`: the current tip.
On an empty geometry OpenLayers returns an empty array; modelled by `dfl`. -/
def activeLast (st : SnapState) : Coord :=
  (activeGeom st).getLast?.getD dfl

/-- `OSMWaySnap.getActiveFeature`. -/
def getActiveFeature (st : SnapState) : Option WayFeature :=
  st.activeFeature

/-- `OSMWaySnap.getSketchLineCoordinates(mouseCoor, candidate)`: coordinates
from the tip of the active feature along `candidate` to the cursor, empty when
the candidate is not usable.  `activeFeatureLastCoor` is passed explicitly
(the method reads it from `this`).  In the loop branch the source passes the
raw `findIndex` results to `getShorterPathOnLoop`; a negative `endIdx` would
make the original throw (`Array(-1)`), which is unreachable because callers
only supply candidates containing `mouseCoor`, so the conversion `Int.toNat`
is only ever applied to non-negative indices. -/
noncomputable def getSketchLineCoordinates (activeFeatureLastCoor mouseCoor : Coord)
    (candidate : List Coord) : List Coord :=
  let candidateIsLoop : Bool :=
    decide (candidate.head?.getD dfl = candidate.getLast?.getD dfl)
  if candidateIsLoop ∧ activeFeatureLastCoor = mouseCoor then []
  else
    let cand1 := if candidate.any (fun c => decide (c = activeFeatureLastCoor))
      then candidate else split candidate activeFeatureLastCoor
    let cand2 := if cand1.any (fun c => decide (c = mouseCoor))
      then cand1 else split cand1 mouseCoor
    let startIdx := findIdxInt cand2 activeFeatureLastCoor
    if startIdx < 0 then []
    else
      let endIdx := findIdxInt cand2 mouseCoor
      if candidateIsLoop then getShorterPathOnLoop cand2 startIdx.toNat endIdx.toNat
      else if endIdx < 0 then []
      else if endIdx = startIdx then []
      else if startIdx < endIdx then
        ((cand2.drop startIdx.toNat).take (endIdx - startIdx + 1).toNat)
      else
        ((cand2.drop endIdx.toNat).take (startIdx - endIdx + 1).toNat).reverse

/-- The candidate loop of `createOrUpdateSketchLine`: the first candidate
yielding a non-empty coordinate set wins, otherwise the initial value of
`sketchCoors` is kept. -/
noncomputable def firstWalk (tip mouseCoor : Coord) (cands : List WayFeature)
    (init0 : List Coord) : List Coord :=
  match cands with
  | [] => init0
  | f :: rest =>
    let r := getSketchLineCoordinates tip mouseCoor f.geom
    if r.isEmpty then firstWalk tip mouseCoor rest init0 else r

/-- The value of `sketchCoors` in `createOrUpdateSketchLine` after the
candidate loop: filter the candidate lines to those containing the cursor,
start from `[]` when any candidate exists (else the straight segment
`[tip, coordinate]`), then let the first candidate with a non-empty walk
overwrite it. -/
noncomputable def selectSketchCoors (st : SnapState) (coordinate : Coord) : List Coord :=
  let candidates := st.candidateLines.filter (fun f => lineContains f.geom coordinate)
  firstWalk (activeLast st) coordinate candidates
    (if candidates.isEmpty then [activeLast st, coordinate] else [])

/-- `OSMWaySnap.extendSketchLineCoorsToDraftOriginal(coordinates)`: when a
draft original line exists and spatially contains the last sketch coordinate,
append the draft's coordinates after that junction (splitting the draft first
when the junction is not one of its vertices) and report that the sketch is
merging into the draft (`this.mergingDraftOriginalLine = true`). -/
def extendSketch (draft : Option WayFeature) (coors : List Coord) : List Coord × Bool :=
  match draft with
  | none => (coors, false)
  | some d =>
    let lastCoordinate := coors.getLast?.getD dfl
    if lineContains d.geom lastCoordinate then
      let idx := findIdxInt d.geom lastCoordinate
      let lineToExtend := if idx < 0 then split d.geom lastCoordinate else d.geom
      let extendFromIdx := findIdxInt lineToExtend lastCoordinate
      (coors ++ jsSliceFrom lineToExtend (extendFromIdx + 1), true)
    else (coors, false)

/-- `OSMWaySnap.createOrUpdateSketchLine(coordinate)`: compute the sketch
coordinates, remove the sketch line when they are empty, otherwise (when
editing is allowed) extend them towards the draft original line and store
them. -/
noncomputable def createOrUpdateSketchLine (st : SnapState) (coordinate : Coord) : SnapState :=
  let sketchCoors := selectSketchCoors st coordinate
  if sketchCoors.isEmpty then { st with sketchLine := none }
  else
    let ext := if st.allowEdit then extendSketch st.draftOriginalLine sketchCoors
      else (sketchCoors, false)
    { st with sketchLine := some ext.1, merging := st.merging || ext.2 }

/-- `OSMWaySnap.fitCandidatesToMapView`: fit the view to the candidate points
not already part of the active feature (observable through `fitCount`). -/
def fitCandidates (st : SnapState) : SnapState :=
  if st.candidatePoints.isEmpty then st
  else if st.hasMap then
    let lastCoordinate := st.coordinates.getLast?.getD dfl
    let fitCoordinates := st.candidatePoints.filter
      (fun p => decide (p = lastCoordinate) || !(lineContains (activeGeom st) p))
    if 1 < fitCoordinates.length then { st with fitCount := st.fitCount + 1 } else st
  else st

/-- `OSMWaySnap.calculateCandidates(fit)`: candidate lines are the way-source
features containing the tip (copied with the `candidate` tag, identifier
preserved), candidate points their flattened vertices; optionally fit the
view, then refresh the sketch line at the tip. -/
noncomputable def calculateCandidates (st : SnapState) (fit : Bool) : SnapState :=
  let lastFeatureCoors := activeLast st
  let cands := st.waySource.filter (fun f => lineContains f.geom lastFeatureCoors)
  let st1 := { st with candidateLines := cands,
                       candidatePoints := (cands.map WayFeature.geom).flatten }
  let st2 := if fit && st1.autoFocus then fitCandidates st1 else st1
  createOrUpdateSketchLine st2 lastFeatureCoors

/-- `OSMWaySnap.finishEditing`: optionally fit the view to the finished
feature, clear the committed coordinates and every sketch/candidate entity,
and remove the draft original line from the way source when it is still
there. -/
def finishEditing (st : SnapState) : SnapState :=
  let st0 := if st.autoFocus && st.hasMap && st.activeFeature.isSome
      && decide (1 < st.coordinates.length)
    then { st with fitCount := st.fitCount + 1 } else st
  let ws := match st0.draftOriginalLine with
    | some d =>
      if st0.waySource.any (fun f => decide (f.fid = d.fid))
        then st0.waySource.filter (fun f => decide (f.fid ≠ d.fid))
        else st0.waySource
    | none => st0.waySource
  { st0 with activeFeature := none, coordinates := [], sketchPoint := none,
             sketchLine := none, candidateLines := [], candidatePoints := [],
             waySource := ws, draftOriginalLine := none, merging := false }

/-- `OSMWaySnap.enterEditMode(feature, fromCoordinate)`: split the clicked
feature at the first vertex equal to `fromCoordinate` (`findIndex`, `-1` when
no vertex matches), keep the prefix as the committed coordinates, stage the
suffix as the draft original line in the way source, and truncate the live
feature's geometry to the prefix (the feature keeps its identity in
`source`). -/
def enterEditMode (st : SnapState) (feature : WayFeature) (fromCoordinate : Coord) : SnapState :=
  let originalCoordinates := feature.geom
  let fromCoordinateIdx := findIdxInt originalCoordinates fromCoordinate
  let committed := originalCoordinates.take (fromCoordinateIdx + 1).toNat
  let draftF : WayFeature := ⟨st.nextId, jsSliceFrom originalCoordinates fromCoordinateIdx⟩
  { st with coordinates := committed,
            draftOriginalLine := some draftF,
            waySource := st.waySource ++ [draftF],
            activeFeature := some ⟨feature.fid, committed⟩,
            source := st.source.map
              (fun g => if g.fid = feature.fid then ⟨feature.fid, committed⟩ else g),
            nextId := st.nextId + 1,
            merging := false }

/-- `OSMWaySnap.updateFeature`: create the active feature from the committed
coordinates or push them into its geometry (also adding it to the target
source once it has more than one vertex), then recompute the candidates. -/
noncomputable def updateFeature (st : SnapState) : SnapState :=
  match st.activeFeature with
  | none =>
    calculateCandidates
      { st with activeFeature := some ⟨st.nextId, st.coordinates⟩,
                nextId := st.nextId + 1 } true
  | some f =>
    let f' : WayFeature := ⟨f.fid, st.coordinates⟩
    let st1 := { st with activeFeature := some f',
                         source := st.source.map
                           (fun g => if g.fid = f.fid then f' else g) }
    let st2 := if 1 < st.coordinates.length
        && !(st1.source.any (fun g => decide (g.fid = f.fid)))
      then { st1 with source := st1.source ++ [f'] } else st1
    calculateCandidates st2 true

/-- `OSMWaySnap.handleEvent` for a `click` event: start a session (edit mode
when permitted and the click lands on a feature of the target source,
otherwise creation), finish when the tip is clicked again, extend with the
sketch line otherwise.  The boolean is the handler's return value (`true`
defers to the default behaviour of `PointerInteraction`). -/
noncomputable def handleClick (st : SnapState) (coordinate : Coord) : SnapState × Bool :=
  if st.coordinates.isEmpty then
    let overlappedFeatures := st.source.filter (fun f => lineContains f.geom coordinate)
    if st.allowEdit && !overlappedFeatures.isEmpty then
      match overlappedFeatures.head? with
      | some f => (updateFeature (enterEditMode st f coordinate), false)
      | none => (st, true)
    else if st.allowCreate then
      (updateFeature { st with coordinates := [st.sketchPoint.getD coordinate] }, false)
    else (st, true)
  else
    if activeLast st = coordinate then (finishEditing st, false)
    else
      match st.sketchLine with
      | some sl =>
        let st1 := updateFeature { st with coordinates := st.coordinates ++ sl.drop 1 }
        (if st1.merging then finishEditing st1 else st1, false)
      | none => (st, true)

/-- `OSMWaySnap.waysFeaturesLoadEnded`: callback for the way source's
`featuresloadend` notification; a no-op without an active feature, otherwise
recompute candidates without fitting the view. -/
noncomputable def waysFeaturesLoadEnded (st : SnapState) : SnapState :=
  match st.activeFeature with
  | none => st
  | some _ => calculateCandidates st false

end OSMWaySnap

end WaySnap



namespace WaySnap

namespace LineStringUtils

/-- The scan of `getSplitIndex` returns `-1` when no position of `rest` is a
hit (neither equal to `c` nor the end of a segment containing `c`). -/
lemma getSplitIndexAux_eq_neg (c : Coord) :
    ∀ (rest : List Coord) (prev : Coord) (i : Nat),
    (∀ m, m < rest.length →
      rest.getD m dfl ≠ c ∧
      segOn (if m = 0 then prev else rest.getD (m - 1) dfl) (rest.getD m dfl) c = false) →
    getSplitIndexAux prev rest c i = -1 := by
  intro rest
  induction rest with
  | nil => intro prev i _; rfl
  | cons x xs ih =>
    intro prev i h
    have h0 := h 0 (by simp)
    simp only [List.getD_cons_zero, if_pos (by rfl : (0:Nat) = 0)] at h0
    norm_num at h0
    simp [getSplitIndexAux, h0.1, h0.2]
    exact ih x (i + 1) (fun m hm => by
      have hm1 := h (m + 1) (by simpa using Nat.succ_lt_succ hm)
      rcases Nat.eq_zero_or_pos m with hm0 | hmpos
      · subst hm0; simpa using hm1
      · obtain ⟨m', rfl⟩ := Nat.exists_eq_add_of_lt hmpos
        simpa [List.getD_cons_succ] using hm1)

/-- The scan of `getSplitIndex`, arriving at the first hit position `m` of
`rest`: a vertex hit yields `-1`, a segment hit yields index `i + m`. -/
lemma getSplitIndexAux_hit (c : Coord) :
    ∀ (rest : List Coord) (prev : Coord) (i m : Nat), m < rest.length →
    (∀ k, k < m →
      rest.getD k dfl ≠ c ∧
      segOn (if k = 0 then prev else rest.getD (k - 1) dfl) (rest.getD k dfl) c = false) →
    (rest.getD m dfl = c → getSplitIndexAux prev rest c i = -1) ∧
    (rest.getD m dfl ≠ c →
      segOn (if m = 0 then prev else rest.getD (m - 1) dfl) (rest.getD m dfl) c = true →
      getSplitIndexAux prev rest c i = Int.ofNat (i + m)) := by
  intro rest
  induction rest with
  | nil => intro prev i m hm; simp at hm
  | cons x xs ih =>
    intro prev i m hm hclean
    rcases Nat.eq_zero_or_pos m with hm0 | hmpos
    · subst hm0
      constructor
      · intro hx
        simp only [List.getD_cons_zero] at hx
        simp [getSplitIndexAux, hx]
      · intro hx hseg
        simp only [List.getD_cons_zero] at hx
        norm_num at hseg
        simp [getSplitIndexAux, hx, hseg]
    · obtain ⟨m', rfl⟩ := Nat.exists_eq_add_of_lt hmpos
      have h0 := hclean 0 (by omega)
      norm_num at h0
      have step : getSplitIndexAux prev (x :: xs) c i = getSplitIndexAux x xs c (i + 1) := by
        simp [getSplitIndexAux, h0.1, h0.2]
      have ihm := ih x (i + 1) m' (by simpa using hm) (fun k hk => by
        have hk1 := hclean (k + 1) (by omega)
        rcases Nat.eq_zero_or_pos k with hk0 | hkpos
        · subst hk0; simpa using hk1
        · obtain ⟨k', rfl⟩ := Nat.exists_eq_add_of_lt hkpos
          simpa [List.getD_cons_succ] using hk1)
      constructor
      · intro hv
        rw [step]
        exact ihm.1 (by simpa [List.getD_cons_succ] using hv)
      · intro hv hseg
        rw [step]
        have hres := ihm.2 (by simpa [List.getD_cons_succ] using hv) (by
          rcases Nat.eq_zero_or_pos m' with hz | hpos
          · subst hz; simpa using hseg
          · obtain ⟨m'', rfl⟩ := Nat.exists_eq_add_of_lt hpos
            simpa [List.getD_cons_succ, Nat.add_sub_cancel] using hseg)
        rw [hres]
        congr 1
        omega

/-- After the scan reports a split index, rescanning the list with `c`
inserted at that index stops at the inserted vertex and reports `-1`. -/
lemma getSplitIndexAux_insert (c : Coord) :
    ∀ (rest : List Coord) (prev : Coord) (i j : Nat),
    getSplitIndexAux prev rest c i = Int.ofNat j →
    ∃ k, j = i + k ∧
      getSplitIndexAux prev (rest.take k ++ c :: rest.drop k) c i = -1 := by
  intro rest
  induction rest with
  | nil => intro prev i j h; simp [getSplitIndexAux] at h
  | cons x xs ih =>
    intro prev i j h
    by_cases hx : x = c
    · simp [getSplitIndexAux, hx] at h
    · by_cases hseg : segOn prev x c = true
      · have hj : j = i := by
          rw [getSplitIndexAux, if_neg hx, hseg] at h
          simpa using h.symm
        refine ⟨0, by omega, ?_⟩
        simp [getSplitIndexAux]
      · have step : getSplitIndexAux prev (x :: xs) c i = getSplitIndexAux x xs c (i + 1) := by
          rw [getSplitIndexAux, if_neg hx]
          simp only [Bool.not_eq_true] at hseg
          rw [hseg]
          simp only [Bool.false_eq_true, if_false]
        rw [step] at h
        obtain ⟨k, hk, hres⟩ := ih x (i + 1) j h
        refine ⟨k + 1, by omega, ?_⟩
        simp only [List.take_succ_cons, List.drop_succ_cons, List.cons_append]
        rw [getSplitIndexAux, if_neg hx]
        simp only [Bool.not_eq_true] at hseg
        rw [hseg]
        simp only [Bool.false_eq_true, if_false]
        exact hres

end LineStringUtils

end WaySnap

namespace WaySnap

namespace LineStringUtils

/-- Non-negative split indices are not negative (stated for `Int.ofNat` so
that rewriting applies directly). -/
lemma intOfNat_not_lt_zero (j : Nat) : ¬ Int.ofNat j < 0 := by
  show ¬ (j : ℤ) < 0
  omega

/-- Claim C8: for every polyline `P` and coordinate `c` on `P`, `split` is
idempotent: `split(split(P, c), c) = split(P, c)`. -/
theorem claim8_split_idempotent (l : List Coord) (c : Coord)
    (h : lineContains l c = true) :
    split (split l c) c = split l c := by
  rcases hidx : getSplitIndex l c with j | n
  · cases l with
    | nil => simp [getSplitIndex] at hidx
    | cons x xs =>
      by_cases hx : x = c
      · rw [getSplitIndex, if_pos hx] at hidx
        simp at hidx
      · rw [getSplitIndex, if_neg hx] at hidx
        obtain ⟨k, hk, hres⟩ := getSplitIndexAux_insert c xs x 1 j hidx
        have hsplit : split (x :: xs) c = x :: (xs.take k ++ c :: xs.drop k) := by
          rw [split]
          simp only [getSplitIndex, if_neg hx, hidx]
          rw [if_neg (intOfNat_not_lt_zero j)]
          subst hk
          simp [List.take_succ_cons, List.drop_succ_cons, Nat.add_comm 1 k]
        have h2 : getSplitIndex (split (x :: xs) c) c = -1 := by
          rw [hsplit, getSplitIndex, if_neg hx]
          exact hres
        rw [split, h2]
        norm_num
  · have hneg : getSplitIndex l c < 0 := by
      rw [hidx]
      exact Int.negSucc_lt_zero n
    have hl : split l c = l := by
      rw [split, if_pos hneg]
    rw [hl]
    exact hl

/-- Claim C8 witness: idempotence at the concrete polyline
`[(0,0), (2,0)]` and the mid-segment coordinate `(1,0)`. -/
theorem claim8_split_idempotent_witness :
    lineContains [((0:ℤ),(0:ℤ)), (2,0)] (1,0) = true
    ∧ split (split [((0:ℤ),(0:ℤ)), (2,0)] (1,0)) (1,0)
        = split [((0:ℤ),(0:ℤ)), (2,0)] (1,0) :=
  ⟨by decide, claim8_split_idempotent _ _ (by decide)⟩

/-- Claim C1 (amended): `split` scans segments `1, ..., n` in order, checking
at step `j` first whether vertex `j` equals `c` and then whether segment
`(j-1, j)` contains `c`.  Hence `split` returns the input unchanged when `c`
is the first vertex, when the first scan hit is a vertex equal to `c`, or
when there is no hit at all; and it inserts `c` immediately before the end
vertex of the first containing segment when that segment is hit before any
vertex equal to `c`.  (The original claim — unchanged whenever `c` equals any
existing vertex — fails when `c` also lies on a segment that ends before the
first occurrence of `c` among the vertices.) -/
theorem claim1_split_amended (l : List Coord) (c : Coord) :
    (l.head? = some c → split l c = l)
    ∧ (l.head? ≠ some c →
       ∀ j, 1 ≤ j → j < l.length →
        (∀ k, 1 ≤ k → k < j →
          l.getD k dfl ≠ c ∧ segOn (l.getD (k - 1) dfl) (l.getD k dfl) c = false) →
        ((l.getD j dfl = c → split l c = l)
         ∧ (l.getD j dfl ≠ c → segOn (l.getD (j - 1) dfl) (l.getD j dfl) c = true →
             split l c = l.take j ++ c :: l.drop j)))
    ∧ (l.head? ≠ some c →
        (∀ k, 1 ≤ k → k < l.length →
          l.getD k dfl ≠ c ∧ segOn (l.getD (k - 1) dfl) (l.getD k dfl) c = false) →
        split l c = l) := by
  refine ⟨?_, ?_, ?_⟩
  · intro hh
    cases l with
    | nil => simp at hh
    | cons x xs =>
      have hx : x = c := by simpa using hh
      rw [split, getSplitIndex, if_pos hx]
      norm_num
  · intro hh j hj1 hjlen hclean
    cases l with
    | nil => simp at hjlen
    | cons x xs =>
      have hx : x ≠ c := by simpa using hh
      obtain ⟨m, rfl⟩ : ∃ m, j = m + 1 := ⟨j - 1, by omega⟩
      have hmlen : m < xs.length := by simpa using hjlen
      have hcleanaux : ∀ k, k < m →
          xs.getD k dfl ≠ c ∧
          segOn (if k = 0 then x else xs.getD (k - 1) dfl) (xs.getD k dfl) c = false := by
        intro k hk
        have := hclean (k + 1) (by omega) (by omega)
        rcases Nat.eq_zero_or_pos k with hk0 | hkpos
        · subst hk0; simpa using this
        · obtain ⟨k', rfl⟩ := Nat.exists_eq_add_of_lt hkpos
          simpa [List.getD_cons_succ] using this
      have hhit := getSplitIndexAux_hit c xs x 1 m hmlen hcleanaux
      constructor
      · intro hv
        have hv' : xs.getD m dfl = c := by simpa [List.getD_cons_succ] using hv
        have := hhit.1 hv'
        rw [split, getSplitIndex, if_neg hx, this]
        norm_num
      · intro hv hseg
        have hv' : xs.getD m dfl ≠ c := by simpa [List.getD_cons_succ] using hv
        have hseg' : segOn (if m = 0 then x else xs.getD (m - 1) dfl) (xs.getD m dfl) c
            = true := by
          rcases Nat.eq_zero_or_pos m with hz | hpos
          · subst hz; simpa using hseg
          · obtain ⟨m', rfl⟩ := Nat.exists_eq_add_of_lt hpos
            simpa [List.getD_cons_succ, Nat.add_sub_cancel] using hseg
        have haux := hhit.2 hv' hseg'
        rw [split, getSplitIndex, if_neg hx, haux]
        rw [if_neg (intOfNat_not_lt_zero (1 + m))]
        have h1m : 1 + m = m + 1 := Nat.add_comm 1 m
        simp [h1m, List.take_succ_cons, List.drop_succ_cons]
  · intro hh hclean
    cases l with
    | nil => rfl
    | cons x xs =>
      have hx : x ≠ c := by simpa using hh
      have hcleanaux : ∀ k, k < xs.length →
          xs.getD k dfl ≠ c ∧
          segOn (if k = 0 then x else xs.getD (k - 1) dfl) (xs.getD k dfl) c = false := by
        intro k hk
        have := hclean (k + 1) (by omega) (by simpa using Nat.succ_lt_succ hk)
        rcases Nat.eq_zero_or_pos k with hk0 | hkpos
        · subst hk0; simpa using this
        · obtain ⟨k', rfl⟩ := Nat.exists_eq_add_of_lt hkpos
          simpa [List.getD_cons_succ] using this
      have := getSplitIndexAux_eq_neg c xs x 1 hcleanaux
      rw [split, getSplitIndex, if_neg hx, this]
      norm_num

/-- Claim C1 counterexample: the coordinate `(1,0)` is an existing vertex of
the polyline `[(0,0), (2,0), (5,5), (1,0)]` (vertices pairwise distinct), yet
`split` does not return the polyline unchanged: `(1,0)` also lies on the
first segment, which the scan reaches first, so `(1,0)` is inserted. -/
theorem claim1_split_counterexample :
    ((1, 0) ∈ ([((0:ℤ),(0:ℤ)), (2,0), (5,5), (1,0)] : List Coord))
    ∧ split [((0:ℤ),(0:ℤ)), (2,0), (5,5), (1,0)] (1,0)
        = [(0,0), (1,0), (2,0), (5,5), (1,0)]
    ∧ split [((0:ℤ),(0:ℤ)), (2,0), (5,5), (1,0)] (1,0)
        ≠ [(0,0), (2,0), (5,5), (1,0)] :=
  ⟨by decide, by decide, by decide⟩

/-- Claim C1 witness: the amended theorem applied to `[(0,0), (2,0)]` and the
interior coordinate `(1,0)`, whose first (and only) scan hit is the segment,
so the coordinate is inserted before the segment's end vertex. -/
theorem claim1_split_witness :
    split [((0:ℤ),(0:ℤ)), (2,0)] (1,0) = [(0,0), (1,0), (2,0)] := by
  have h := ((claim1_split_amended [((0:ℤ),(0:ℤ)), (2,0)] (1,0)).2.1
      (by decide) 1 (by omega) (by decide)
      (fun k hk1 hk2 => absurd (lt_of_le_of_lt hk1 hk2) (by omega))).2
      (by decide) (by decide)
  simpa using h

end LineStringUtils

end WaySnap

namespace WaySnap

namespace LineStringUtils

/-- Head of a mapped index range. -/
lemma rangeMapHead (f : Nat → Nat) (k : Nat) (hk : 0 < k) :
    ((List.range k).map f).head? = some (f 0) := by
  obtain ⟨j, rfl⟩ : ∃ j, k = j + 1 := ⟨k - 1, by omega⟩
  rw [List.range_succ_eq_map]
  simp

/-- Last element of a mapped index range. -/
lemma rangeMapLast (f : Nat → Nat) (k : Nat) (hk : 0 < k) :
    ((List.range k).map f).getLast? = some (f (k - 1)) := by
  obtain ⟨j, rfl⟩ : ∃ j, k = j + 1 := ⟨k - 1, by omega⟩
  have hr : List.range (j + 1) = List.range j ++ [j] := by
    simpa using List.range_succ j
  rw [hr, List.map_append]
  simp [List.getLast?_append]

/-- The loop travel always starts at `fromIdx`. -/
lemma travel_head (n a b : Nat) (ha : a < n) (hab : a ≠ b) :
    (getLoopTravelIndices n a b).head? = some a := by
  unfold getLoopTravelIndices
  by_cases h : a < b
  · rw [if_pos h, rangeMapHead _ _ (by omega)]
    simp
  · rw [if_neg h, List.head?_append, rangeMapHead _ _ (by omega)]
    simp

/-- The loop travel ends at `toIdx`, or at the seam vertex `n - 1` when
`toIdx = 0` (wrapping skips index `0`). -/
lemma travel_last (n a b : Nat) (ha : a < n) (hb : b < n) (hab : a ≠ b) :
    (getLoopTravelIndices n a b).getLast? = some (if b = 0 then n - 1 else b) := by
  unfold getLoopTravelIndices
  by_cases h : a < b
  · rw [if_pos h, rangeMapLast _ _ (by omega), if_neg (by omega : ¬ b = 0)]
    simp only [Option.some.injEq]
    omega
  · rw [if_neg h]
    by_cases hb0 : b = 0
    · subst hb0
      simp only [List.range_zero, List.map_nil, List.append_nil]
      rw [rangeMapLast _ _ (by omega)]
      simp
      omega
    · rw [List.getLast?_append, rangeMapLast _ _ (by omega : 0 < b), if_neg hb0]
      simp
      omega

/-- In a closed loop the seam vertices coincide: the last coordinate equals
the first. -/
lemma loop_getElem_seam (l : List Coord) (hloop : l.head? = l.getLast?) :
    l[l.length - 1]?.getD dfl = l[0]?.getD dfl := by
  rw [← List.getLast?_eq_getElem?, ← List.head?_eq_getElem?, hloop]

/-- The forward walk starts at the coordinate of `fromIdx`. -/
lemma walkF_head (l : List Coord) (a b : Nat) (ha : a < l.length) (hab : a ≠ b) :
    (walkF l a b).head? = some (l.getD a dfl) := by
  unfold walkF
  rw [List.head?_map, travel_head l.length a b ha hab]
  rfl

/-- The forward walk ends at the coordinate of `toIdx` (through the seam
identity when `toIdx = 0`). -/
lemma walkF_last (l : List Coord) (a b : Nat) (h2 : 2 ≤ l.length)
    (hloop : l.head? = l.getLast?) (ha : a < l.length) (hb : b < l.length)
    (hab : a ≠ b) :
    (walkF l a b).getLast? = some (l.getD b dfl) := by
  unfold walkF
  rw [List.getLast?_map, travel_last l.length a b ha hb hab]
  by_cases hb0 : b = 0
  · subst hb0
    simp [loop_getElem_seam l hloop]
  · rw [if_neg hb0]
    simp

/-- The backward walk starts at the coordinate of `fromIdx`. -/
lemma walkR_head (l : List Coord) (a b : Nat) (h2 : 2 ≤ l.length)
    (hloop : l.head? = l.getLast?) (ha : a < l.length) (hb : b < l.length)
    (hab : a ≠ b) :
    (walkR l a b).head? = some (l.getD a dfl) := by
  unfold walkR
  rw [List.head?_map, List.head?_reverse, travel_last l.length b a hb ha (Ne.symm hab)]
  by_cases ha0 : a = 0
  · subst ha0
    simp [loop_getElem_seam l hloop]
  · rw [if_neg ha0]
    simp

/-- The backward walk ends at the coordinate of `toIdx`. -/
lemma walkR_last (l : List Coord) (a b : Nat) (ha : a < l.length)
    (hb : b < l.length) (hab : a ≠ b) :
    (walkR l a b).getLast? = some (l.getD b dfl) := by
  unfold walkR
  rw [List.getLast?_map, List.getLast?_reverse, travel_head l.length b a hb (Ne.symm hab)]
  rfl

/-- Claim C2 (amended): on a closed loop, `getShorterPathOnLoop` returns the
empty sequence when `fromIdx = toIdx`; otherwise it computes the forward and
the backward index walks (wrapping at the seam), returns the forward walk
when it is strictly shorter in cumulative Euclidean length and the backward
walk (already reversed, so that it runs from `fromIdx` to `toIdx`) otherwise
— in particular ties are broken in favour of the backward walk, not the
forward one as originally claimed — and the result always starts at the
coordinate of `fromIdx` and ends at the coordinate of `toIdx`. -/
theorem claim2_shorter_loop_amended (l : List Coord) (a b : Nat)
    (h2 : 2 ≤ l.length) (hloop : l.head? = l.getLast?)
    (ha : a < l.length) (hb : b < l.length) :
    (a = b → getShorterPathOnLoop l a b = [])
    ∧ (a ≠ b →
        (getLength (walkF l a b) < getLength (walkR l a b) →
          getShorterPathOnLoop l a b = walkF l a b)
        ∧ (¬ getLength (walkF l a b) < getLength (walkR l a b) →
          getShorterPathOnLoop l a b = walkR l a b)
        ∧ (getShorterPathOnLoop l a b).head? = some (l.getD a dfl)
        ∧ (getShorterPathOnLoop l a b).getLast? = some (l.getD b dfl)) := by
  constructor
  · intro hab
    unfold getShorterPathOnLoop
    rw [if_pos hab]
  · intro hab
    refine ⟨?_, ?_, ?_, ?_⟩
    · intro hlt
      unfold getShorterPathOnLoop
      rw [if_neg hab, if_pos hlt]
    · intro hlt
      unfold getShorterPathOnLoop
      rw [if_neg hab, if_neg hlt]
    · by_cases hlt : getLength (walkF l a b) < getLength (walkR l a b)
      · have hres : getShorterPathOnLoop l a b = walkF l a b := by
          unfold getShorterPathOnLoop
          rw [if_neg hab, if_pos hlt]
        rw [hres]
        exact walkF_head l a b ha hab
      · have hres : getShorterPathOnLoop l a b = walkR l a b := by
          unfold getShorterPathOnLoop
          rw [if_neg hab, if_neg hlt]
        rw [hres]
        exact walkR_head l a b h2 hloop ha hb hab
    · by_cases hlt : getLength (walkF l a b) < getLength (walkR l a b)
      · have hres : getShorterPathOnLoop l a b = walkF l a b := by
          unfold getShorterPathOnLoop
          rw [if_neg hab, if_pos hlt]
        rw [hres]
        exact walkF_last l a b h2 hloop ha hb hab
      · have hres : getShorterPathOnLoop l a b = walkR l a b := by
          unfold getShorterPathOnLoop
          rw [if_neg hab, if_neg hlt]
        rw [hres]
        exact walkR_last l a b ha hb hab

/-- The unit-square loop used to exercise `getShorterPathOnLoop`. -/
def claim2Loop : List Coord := [(0,0), (0,1), (1,1), (1,0), (0,0)]

/-- Claim C2 counterexample: between the antipodal indices `0` and `2` of the
unit-square loop both walks have Euclidean length `2`; the original claim
says the tie is broken in favour of the forward walk, but the code returns
the backward walk. -/
theorem claim2_shorter_loop_counterexample :
    getLength (walkF claim2Loop 0 2) = getLength (walkR claim2Loop 0 2)
    ∧ getShorterPathOnLoop claim2Loop 0 2 = walkR claim2Loop 0 2
    ∧ getShorterPathOnLoop claim2Loop 0 2 ≠ walkF claim2Loop 0 2 := by
  have hF : walkF claim2Loop 0 2 = [(0,0), (0,1), (1,1)] := by decide
  have hR : walkR claim2Loop 0 2 = [(0,0), (1,0), (1,1)] := by decide
  have d1 : dist ((0:ℤ),(0:ℤ)) (0,1) = 1 := by
    simp [dist]
  have d2 : dist ((0:ℤ),(1:ℤ)) (1,1) = 1 := by
    simp [dist]
  have d3 : dist ((0:ℤ),(0:ℤ)) (1,0) = 1 := by
    simp [dist]
  have d4 : dist ((1:ℤ),(0:ℤ)) (1,1) = 1 := by
    simp [dist]
  have hlenF : getLength (walkF claim2Loop 0 2) = 2 := by
    rw [hF]
    simp only [getLength]
    rw [d1, d2]
    norm_num
  have hlenR : getLength (walkR claim2Loop 0 2) = 2 := by
    rw [hR]
    simp only [getLength]
    rw [d3, d4]
    norm_num
  have heq : getLength (walkF claim2Loop 0 2) = getLength (walkR claim2Loop 0 2) := by
    rw [hlenF, hlenR]
  have hres : getShorterPathOnLoop claim2Loop 0 2 = walkR claim2Loop 0 2 := by
    unfold getShorterPathOnLoop
    rw [if_neg (by decide : ¬ (0:Nat) = 2)]
    rw [if_neg (by rw [hlenF, hlenR]; exact lt_irrefl 2)]
  refine ⟨heq, hres, ?_⟩
  rw [hres, hR, hF]
  decide

/-- Claim C2 witness: the amended theorem applied to the unit-square loop
between indices `0` and `1`; the returned walk runs from the loop coordinate
at index `0` to the loop coordinate at index `1`. -/
theorem claim2_shorter_loop_witness :
    (getShorterPathOnLoop claim2Loop 0 1).head? = some ((0:ℤ),(0:ℤ))
    ∧ (getShorterPathOnLoop claim2Loop 0 1).getLast? = some ((0:ℤ),(1:ℤ)) := by
  have h := (claim2_shorter_loop_amended claim2Loop 0 1 (by decide) (by decide)
      (by decide) (by decide)).2 (by decide)
  constructor
  · have hh := h.2.2.1
    rw [show claim2Loop.getD 0 dfl = ((0:ℤ),(0:ℤ)) from by decide] at hh
    exact hh
  · have hh := h.2.2.2
    rw [show claim2Loop.getD 1 dfl = ((0:ℤ),(1:ℤ)) from by decide] at hh
    exact hh

end LineStringUtils

end WaySnap

namespace WaySnap

namespace OSMWaySnap

/-- `createOrUpdateSketchLine` only writes the `sketchLine` and `merging`
fields. -/
lemma createOrUpdateSketchLine_fields (st : SnapState) (p : Coord) :
    (createOrUpdateSketchLine st p).coordinates = st.coordinates
    ∧ (createOrUpdateSketchLine st p).activeFeature = st.activeFeature
    ∧ (createOrUpdateSketchLine st p).draftOriginalLine = st.draftOriginalLine
    ∧ (createOrUpdateSketchLine st p).candidateLines = st.candidateLines
    ∧ (createOrUpdateSketchLine st p).candidatePoints = st.candidatePoints
    ∧ (createOrUpdateSketchLine st p).source = st.source
    ∧ (createOrUpdateSketchLine st p).waySource = st.waySource
    ∧ (createOrUpdateSketchLine st p).fitCount = st.fitCount
    ∧ (createOrUpdateSketchLine st p).sketchPoint = st.sketchPoint := by
  unfold createOrUpdateSketchLine
  by_cases h : (selectSketchCoors st p).isEmpty
  · simp [h]
  · simp [h]

/-- `fitCandidatesToMapView` only writes the `fitCount` field. -/
lemma fitCandidates_fields (st : SnapState) :
    (fitCandidates st).coordinates = st.coordinates
    ∧ (fitCandidates st).activeFeature = st.activeFeature
    ∧ (fitCandidates st).draftOriginalLine = st.draftOriginalLine
    ∧ (fitCandidates st).candidateLines = st.candidateLines
    ∧ (fitCandidates st).candidatePoints = st.candidatePoints
    ∧ (fitCandidates st).source = st.source
    ∧ (fitCandidates st).waySource = st.waySource
    ∧ (fitCandidates st).sketchLine = st.sketchLine
    ∧ (fitCandidates st).sketchPoint = st.sketchPoint
    ∧ (fitCandidates st).merging = st.merging
    ∧ (fitCandidates st).allowEdit = st.allowEdit
    ∧ (fitCandidates st).autoFocus = st.autoFocus := by
  unfold fitCandidates
  by_cases h1 : st.candidatePoints.isEmpty
  · simp [h1]
  · by_cases h2 : st.hasMap
    · simp only [h1, h2, Bool.false_eq_true, if_false, if_true]
      by_cases h3 : 1 < (st.candidatePoints.filter
          (fun p => decide (p = st.coordinates.getLast?.getD dfl)
            || !(lineContains (activeGeom st) p))).length
      · simp [h3]
      · simp [h3]
    · simp [h1, h2]

/-- `calculateCandidates` recomputes the candidate sets from the way source at
the current tip and leaves the committed coordinates, the active feature, the
draft line and both feature collections unchanged; with `fit = false` it also
leaves `fitCount` unchanged. -/
lemma calculateCandidates_core (st : SnapState) (fit : Bool) :
    (calculateCandidates st fit).coordinates = st.coordinates
    ∧ (calculateCandidates st fit).activeFeature = st.activeFeature
    ∧ (calculateCandidates st fit).draftOriginalLine = st.draftOriginalLine
    ∧ (calculateCandidates st fit).source = st.source
    ∧ (calculateCandidates st fit).waySource = st.waySource
    ∧ (calculateCandidates st fit).candidateLines
        = st.waySource.filter (fun f => lineContains f.geom (activeLast st))
    ∧ (calculateCandidates st fit).candidatePoints
        = ((st.waySource.filter (fun f => lineContains f.geom (activeLast st))).map
            WayFeature.geom).flatten
    ∧ (fit = false → (calculateCandidates st fit).fitCount = st.fitCount)
    ∧ (calculateCandidates st fit).sketchPoint = st.sketchPoint := by
  unfold calculateCandidates
  by_cases hf : (fit && st.autoFocus) = true
  · have hfit : fit = true := by
      rcases fit with _ | _
      · simp at hf
      · rfl
    simp only [hf, if_true]
    obtain ⟨f1, f2, f3, f4, f5, f6, f7, f8, f9, f10, f11, f12⟩ :=
      fitCandidates_fields { st with
        candidateLines := st.waySource.filter (fun f => lineContains f.geom (activeLast st)),
        candidatePoints := ((st.waySource.filter
          (fun f => lineContains f.geom (activeLast st))).map WayFeature.geom).flatten }
    obtain ⟨c1, c2, c3, c4, c5, c6, c7, c8, c9⟩ :=
      createOrUpdateSketchLine_fields (fitCandidates { st with
        candidateLines := st.waySource.filter (fun f => lineContains f.geom (activeLast st)),
        candidatePoints := ((st.waySource.filter
          (fun f => lineContains f.geom (activeLast st))).map WayFeature.geom).flatten })
        (activeLast st)
    refine ⟨?_, ?_, ?_, ?_, ?_, ?_, ?_, ?_, ?_⟩
    · rw [c1, f1]
    · rw [c2, f2]
    · rw [c3, f3]
    · rw [c6, f6]
    · rw [c7, f7]
    · rw [c4, f4]
    · rw [c5, f5]
    · intro hh
      rw [hh] at hfit
      exact absurd hfit (by simp)
    · rw [c9, f9]
  · simp only [hf, Bool.false_eq_true, if_false]
    obtain ⟨c1, c2, c3, c4, c5, c6, c7, c8, c9⟩ :=
      createOrUpdateSketchLine_fields { st with
        candidateLines := st.waySource.filter (fun f => lineContains f.geom (activeLast st)),
        candidatePoints := ((st.waySource.filter
          (fun f => lineContains f.geom (activeLast st))).map WayFeature.geom).flatten }
        (activeLast st)
    exact ⟨c1, c2, c3, c6, c7, c4, c5, fun _ => c8, c9⟩

end OSMWaySnap

end WaySnap

namespace WaySnap

namespace OSMWaySnap

/-- The candidate loop of `createOrUpdateSketchLine` returns the first
non-empty candidate walk, and the initial value when every walk is empty. -/
lemma firstWalk_spec (tip p : Coord) (init0 : List Coord) :
    ∀ cands : List WayFeature,
    ((cands.map (fun f => getSketchLineCoordinates tip p f.geom)).find?
        (fun l => !l.isEmpty) = none → firstWalk tip p cands init0 = init0)
    ∧ (∀ w, (cands.map (fun f => getSketchLineCoordinates tip p f.geom)).find?
        (fun l => !l.isEmpty) = some w → firstWalk tip p cands init0 = w) := by
  intro cands
  induction cands with
  | nil => simp [firstWalk]
  | cons f rest ih =>
    by_cases hw : (getSketchLineCoordinates tip p f.geom).isEmpty = true
    · constructor
      · intro hn
        rw [List.map_cons, List.find?_cons_of_neg _ (by simp [hw])] at hn
        rw [firstWalk, if_pos hw]
        exact ih.1 hn
      · intro w hn
        rw [List.map_cons, List.find?_cons_of_neg _ (by simp [hw])] at hn
        rw [firstWalk, if_pos hw]
        exact ih.2 w hn
    · constructor
      · intro hn
        rw [List.map_cons, List.find?_cons_of_pos _ (by simp [hw])] at hn
        exact absurd hn (by simp)
      · intro w hn
        rw [List.map_cons, List.find?_cons_of_pos _ (by simp [hw])] at hn
        rw [firstWalk, if_neg hw]
        exact Option.some.inj hn

end OSMWaySnap

end WaySnap

namespace WaySnap

namespace OSMWaySnap

/-- Claim C3 (amended): the sketch preview considers the candidate lines
containing the pointer in their original enumeration order and the first
candidate whose walk from the tip to the pointer is non-empty supplies the
preview; when no candidate line contains the pointer the preview is the
straight two-point segment `[tip, pointer]`; but when candidates containing
the pointer exist and every one of them yields an empty walk, the sketch
line is removed (no preview) rather than falling back to the straight
segment as originally claimed. -/
theorem claim3_sketch_amended (st : SnapState) (p : Coord) :
    (st.candidateLines.filter (fun f => lineContains f.geom p) = [] →
      selectSketchCoors st p = [activeLast st, p])
    ∧ (∀ w, ((st.candidateLines.filter (fun f => lineContains f.geom p)).map
          (fun f => getSketchLineCoordinates (activeLast st) p f.geom)).find?
          (fun l => !l.isEmpty) = some w →
        selectSketchCoors st p = w)
    ∧ (st.candidateLines.filter (fun f => lineContains f.geom p) ≠ [] →
        ((st.candidateLines.filter (fun f => lineContains f.geom p)).map
          (fun f => getSketchLineCoordinates (activeLast st) p f.geom)).find?
          (fun l => !l.isEmpty) = none →
        (createOrUpdateSketchLine st p).sketchLine = none) := by
  refine ⟨?_, ?_, ?_⟩
  · intro hfilt
    unfold selectSketchCoors
    rw [hfilt]
    simp [firstWalk]
  · intro w hfind
    unfold selectSketchCoors
    exact (firstWalk_spec (activeLast st) p _ _).2 w hfind
  · intro hfilt hfind
    have hsel : selectSketchCoors st p = [] := by
      unfold selectSketchCoors
      rw [(firstWalk_spec (activeLast st) p _ _).1 hfind]
      simp [hfilt]
    unfold createOrUpdateSketchLine
    rw [hsel]
    simp

/-- State exercising claim C3: the pointer coincides with the tip `(0,0)`,
which lies mid-segment on the single candidate line, so the candidate list
filtered at the pointer is non-empty while every candidate walk is empty. -/
def claim3State : SnapState :=
  { allowEdit := true, allowCreate := true, autoFocus := false, hasMap := false,
    coordinates := [(0,0)],
    activeFeature := some ⟨1, [(0,0)]⟩,
    sketchPoint := none, sketchLine := some [(9,9), (8,8)],
    draftOriginalLine := none,
    candidateLines := [⟨2, [(-1,0), (1,0)]⟩],
    candidatePoints := [(-1,0), (1,0)], merging := false,
    source := [], waySource := [], nextId := 3, fitCount := 0 }

/-- Claim C3 counterexample: with the pointer `(0,0)` equal to the tip, the
candidate filtered list is non-empty but its only walk is empty; the code
removes the sketch line entirely instead of producing the straight segment
`[tip, pointer]` demanded by the claim. -/
theorem claim3_sketch_counterexample :
    claim3State.candidateLines.filter
        (fun f => lineContains f.geom ((0:ℤ), (0:ℤ))) ≠ []
    ∧ (createOrUpdateSketchLine claim3State (0,0)).sketchLine = none
    ∧ (createOrUpdateSketchLine claim3State (0,0)).sketchLine
        ≠ some [activeLast claim3State, (0,0)] :=
  ⟨by decide, by decide, by decide⟩

/-- Claim C3 witness: the amended theorem applied to `claim3State`, removing
the preview when candidates exist but all walks are empty. -/
theorem claim3_sketch_witness :
    (createOrUpdateSketchLine claim3State (0,0)).sketchLine = none :=
  (claim3_sketch_amended claim3State (0,0)).2.2 (by decide) (by decide)

/-- Claim C4 (amended): after a non-empty sketch preview is computed —
whether from a candidate walk or from the straight two-point fallback — it is
extended with the draft remainder's coordinates strictly after the junction
point and the merge-pending flag is set exactly when editing is allowed, a
draft remainder exists and the draft's geometry spatially contains the
preview's last coordinate.  (The original claim that a straight-fallback
preview is never extended is false.) -/
theorem claim4_extend_amended (st : SnapState) (p : Coord)
    (hne : ¬ (selectSketchCoors st p).isEmpty = true) :
    (∀ d, st.allowEdit = true → st.draftOriginalLine = some d →
      lineContains d.geom ((selectSketchCoors st p).getLast?.getD dfl) = true →
      (createOrUpdateSketchLine st p).merging = true
      ∧ (createOrUpdateSketchLine st p).sketchLine
          = some (selectSketchCoors st p ++
              jsSliceFrom
                (if findIdxInt d.geom ((selectSketchCoors st p).getLast?.getD dfl) < 0
                 then LineStringUtils.split d.geom
                   ((selectSketchCoors st p).getLast?.getD dfl)
                 else d.geom)
                (findIdxInt
                  (if findIdxInt d.geom ((selectSketchCoors st p).getLast?.getD dfl) < 0
                   then LineStringUtils.split d.geom
                     ((selectSketchCoors st p).getLast?.getD dfl)
                   else d.geom)
                  ((selectSketchCoors st p).getLast?.getD dfl) + 1)))
    ∧ (st.allowEdit = false →
        (createOrUpdateSketchLine st p).sketchLine = some (selectSketchCoors st p)
        ∧ (createOrUpdateSketchLine st p).merging = st.merging)
    ∧ (st.draftOriginalLine = none →
        (createOrUpdateSketchLine st p).sketchLine = some (selectSketchCoors st p)
        ∧ (createOrUpdateSketchLine st p).merging = st.merging)
    ∧ (∀ d, st.draftOriginalLine = some d →
        lineContains d.geom ((selectSketchCoors st p).getLast?.getD dfl) = false →
        (createOrUpdateSketchLine st p).sketchLine = some (selectSketchCoors st p)
        ∧ (createOrUpdateSketchLine st p).merging = st.merging) := by
  refine ⟨?_, ?_, ?_, ?_⟩
  · intro d hedit hd hcont
    unfold createOrUpdateSketchLine
    rw [if_neg hne, hedit]
    unfold extendSketch
    rw [hd]
    simp only [hcont, if_true, if_pos]
    constructor
    · simp
    · simp
  · intro hedit
    unfold createOrUpdateSketchLine
    rw [if_neg hne, hedit]
    simp
  · intro hd
    unfold createOrUpdateSketchLine
    rw [if_neg hne]
    unfold extendSketch
    rw [hd]
    by_cases hedit : st.allowEdit
    · simp [hedit]
    · simp [hedit]
  · intro d hd hcont
    unfold createOrUpdateSketchLine
    rw [if_neg hne]
    unfold extendSketch
    rw [hd]
    by_cases hedit : st.allowEdit
    · simp [hedit, hcont]
    · simp [hedit]

/-- State exercising claim C4: no candidate line contains the pointer
`(0,0)`, so the preview is the straight fallback `[(1,1), (0,0)]`; a draft
remainder `[(0,0), (0,10)]` exists and contains the preview's last
coordinate. -/
def claim4State : SnapState :=
  { allowEdit := true, allowCreate := true, autoFocus := false, hasMap := false,
    coordinates := [(1,1)],
    activeFeature := some ⟨1, [(1,1)]⟩,
    sketchPoint := none, sketchLine := none,
    draftOriginalLine := some ⟨5, [(0,0), (0,10)]⟩,
    candidateLines := [],
    candidatePoints := [], merging := false,
    source := [], waySource := [⟨5, [(0,0), (0,10)]⟩], nextId := 6, fitCount := 0 }

/-- Claim C4 counterexample: the preview comes from the straight two-point
fallback (no candidate contains the pointer), yet it is extended with the
draft remainder's trailing coordinates and the merge-pending flag is set —
contradicting the claim that a straight-fallback preview is never
extended. -/
theorem claim4_extend_counterexample :
    claim4State.candidateLines.filter (fun f => lineContains f.geom ((0:ℤ), (0:ℤ))) = []
    ∧ selectSketchCoors claim4State (0,0) = [((1:ℤ), (1:ℤ)), (0,0)]
    ∧ (createOrUpdateSketchLine claim4State (0,0)).sketchLine
        = some [((1:ℤ), (1:ℤ)), (0,0), (0,10)]
    ∧ (createOrUpdateSketchLine claim4State (0,0)).merging = true :=
  ⟨by decide, by decide, by decide, by decide⟩

/-- Claim C4 witness: the amended theorem applied to `claim4State`, where the
extension condition holds and the merge-pending flag is set. -/
theorem claim4_extend_witness :
    (createOrUpdateSketchLine claim4State (0,0)).merging = true :=
  ((claim4_extend_amended claim4State (0,0) (by decide)).1
    ⟨5, [(0,0), (0,10)]⟩ rfl rfl (by decide)).1

end OSMWaySnap

end WaySnap

namespace WaySnap

open LineStringUtils

namespace OSMWaySnap

/-- Dropping all but one element of a non-empty list leaves its last
element. -/
lemma drop_length_sub_one {α : Type} (l : List α) (h : l ≠ []) :
    l.drop (l.length - 1) = [l.getLast h] := by
  induction l with
  | nil => simp at h
  | cons a as ih =>
    cases as with
    | nil => simp
    | cons b bs =>
      have hne : b :: bs ≠ [] := by simp
      have hih := ih hne
      have hlen : (a :: b :: bs).length - 1 = ((b :: bs).length - 1) + 1 := by
        simp
      rw [hlen, List.drop_succ_cons, hih]
      congr 1

/-- `updateFeature` on a state with an active feature: committed coordinates,
draft line, way source and sketch point are preserved; the active feature
keeps its identity and its geometry becomes the committed coordinates. -/
lemma updateFeature_some (st : SnapState) (f : WayFeature)
    (hact : st.activeFeature = some f) :
    (updateFeature st).coordinates = st.coordinates
    ∧ (updateFeature st).activeFeature = some ⟨f.fid, st.coordinates⟩
    ∧ (updateFeature st).draftOriginalLine = st.draftOriginalLine
    ∧ (updateFeature st).waySource = st.waySource
    ∧ (updateFeature st).sketchPoint = st.sketchPoint := by
  have key : ∀ st2 : SnapState, st2.coordinates = st.coordinates →
      st2.activeFeature = some ⟨f.fid, st.coordinates⟩ →
      st2.draftOriginalLine = st.draftOriginalLine →
      st2.waySource = st.waySource →
      st2.sketchPoint = st.sketchPoint →
      (calculateCandidates st2 true).coordinates = st.coordinates
      ∧ (calculateCandidates st2 true).activeFeature = some ⟨f.fid, st.coordinates⟩
      ∧ (calculateCandidates st2 true).draftOriginalLine = st.draftOriginalLine
      ∧ (calculateCandidates st2 true).waySource = st.waySource
      ∧ (calculateCandidates st2 true).sketchPoint = st.sketchPoint := by
    intro st2 h1 h2 h3 h4 h5
    obtain ⟨c1, c2, c3, c4, c5, c6, c7, c8, c9⟩ := calculateCandidates_core st2 true
    exact ⟨c1.trans h1, c2.trans h2, c3.trans h3, c5.trans h4, c9.trans h5⟩
  have key2 : ∀ (cnd : Bool) (A B : SnapState),
      A.coordinates = st.coordinates →
      A.activeFeature = some ⟨f.fid, st.coordinates⟩ →
      A.draftOriginalLine = st.draftOriginalLine →
      A.waySource = st.waySource →
      A.sketchPoint = st.sketchPoint →
      B.coordinates = st.coordinates →
      B.activeFeature = some ⟨f.fid, st.coordinates⟩ →
      B.draftOriginalLine = st.draftOriginalLine →
      B.waySource = st.waySource →
      B.sketchPoint = st.sketchPoint →
      ((calculateCandidates (if cnd = true then A else B) true).coordinates
          = st.coordinates
       ∧ (calculateCandidates (if cnd = true then A else B) true).activeFeature
          = some ⟨f.fid, st.coordinates⟩
       ∧ (calculateCandidates (if cnd = true then A else B) true).draftOriginalLine
          = st.draftOriginalLine
       ∧ (calculateCandidates (if cnd = true then A else B) true).waySource
          = st.waySource
       ∧ (calculateCandidates (if cnd = true then A else B) true).sketchPoint
          = st.sketchPoint) := by
    intro cnd A B a1 a2 a3 a4 a5 b1 b2 b3 b4 b5
    cases cnd
    · simp only [Bool.false_eq_true, if_false]
      exact key B b1 b2 b3 b4 b5
    · simp only [if_pos rfl]
      exact key A a1 a2 a3 a4 a5
  unfold updateFeature
  split
  · rename_i heq
    rw [hact] at heq
    exact absurd heq (by simp)
  · rename_i g heq
    rw [hact] at heq
    have hg : g = f := (Option.some.inj heq).symm
    subst hg
    exact key2 _ _ _ rfl rfl rfl rfl rfl rfl rfl rfl rfl rfl

/-- `finishEditing` clears the whole session state and removes the draft
original line from the way source. -/
lemma finishEditing_spec (st : SnapState) :
    (finishEditing st).activeFeature = none
    ∧ (finishEditing st).coordinates = []
    ∧ (finishEditing st).sketchPoint = none
    ∧ (finishEditing st).sketchLine = none
    ∧ (finishEditing st).candidateLines = []
    ∧ (finishEditing st).candidatePoints = []
    ∧ (finishEditing st).draftOriginalLine = none
    ∧ (finishEditing st).merging = false
    ∧ (∀ d, st.draftOriginalLine = some d →
        ∀ g ∈ (finishEditing st).waySource, g.fid ≠ d.fid) := by
  have hws : (finishEditing st).waySource
      = (match st.draftOriginalLine with
         | some d =>
           if st.waySource.any (fun f => decide (f.fid = d.fid))
             then st.waySource.filter (fun f => decide (f.fid ≠ d.fid))
             else st.waySource
         | none => st.waySource) := by
    unfold finishEditing
    split
    · rfl
    · rfl
  refine ⟨rfl, rfl, rfl, rfl, rfl, rfl, rfl, rfl, ?_⟩
  intro d hd g hg
  have hws2 : (finishEditing st).waySource
      = (if st.waySource.any (fun f => decide (f.fid = d.fid)) = true
          then st.waySource.filter (fun f => decide (f.fid ≠ d.fid))
          else st.waySource) := by
    rw [hws, hd]
  rw [hws2] at hg
  by_cases hh : st.waySource.any (fun f => decide (f.fid = d.fid)) = true
  · rw [if_pos hh] at hg
    have := List.mem_filter.mp hg
    simpa using this.2
  · rw [if_neg hh] at hg
    rw [List.any_eq_true] at hh
    push_neg at hh
    have := hh g hg
    simpa using this

/-- Claim C9: when the way source's `featuresloadend` notification arrives
while a session is active, candidates are recomputed for the current tip but
the committed vertex list is unchanged and the viewport is not re-fitted;
while idle the notification is a complete no-op on the session state. -/
theorem claim9_load_end_refresh (st : SnapState) :
    (st.activeFeature = none → waysFeaturesLoadEnded st = st)
    ∧ (st.activeFeature.isSome = true →
        (waysFeaturesLoadEnded st).coordinates = st.coordinates
        ∧ (waysFeaturesLoadEnded st).fitCount = st.fitCount
        ∧ (waysFeaturesLoadEnded st).candidateLines
            = st.waySource.filter (fun f => lineContains f.geom (activeLast st))
        ∧ (waysFeaturesLoadEnded st).candidatePoints
            = ((st.waySource.filter (fun f => lineContains f.geom (activeLast st))).map
                WayFeature.geom).flatten) := by
  constructor
  · intro h
    unfold waysFeaturesLoadEnded
    rw [h]
  · intro h
    obtain ⟨f, hf⟩ := Option.isSome_iff_exists.mp h
    have hrw : waysFeaturesLoadEnded st = calculateCandidates st false := by
      unfold waysFeaturesLoadEnded
      rw [hf]
    obtain ⟨c1, c2, c3, c4, c5, c6, c7, c8, c9⟩ := calculateCandidates_core st false
    rw [hrw]
    exact ⟨c1, c8 rfl, c6, c7⟩

/-- Idle state used to witness claim C9. -/
def claim9Idle : SnapState :=
  { allowEdit := true, allowCreate := true, autoFocus := true, hasMap := true,
    coordinates := [], activeFeature := none, sketchPoint := none, sketchLine := none,
    draftOriginalLine := none, candidateLines := [], candidatePoints := [],
    merging := false, source := [], waySource := [⟨2, [(0,0), (1,0)]⟩],
    nextId := 10, fitCount := 0 }

/-- Active state used to witness claim C9: tip `(0,0)`, one way-source line
through the tip and one far away. -/
def claim9Active : SnapState :=
  { allowEdit := false, allowCreate := true, autoFocus := true, hasMap := true,
    coordinates := [(0,0)], activeFeature := some ⟨1, [(0,0)]⟩,
    sketchPoint := none, sketchLine := none,
    draftOriginalLine := none, candidateLines := [], candidatePoints := [],
    merging := false, source := [],
    waySource := [⟨2, [(0,0), (1,0)]⟩, ⟨3, [(5,5), (6,5)]⟩],
    nextId := 10, fitCount := 0 }

/-- Claim C9 witness: the theorem applied to a concrete idle state (strict
no-op) and a concrete active state (candidates recomputed at the tip, the
committed list and fit counter untouched). -/
theorem claim9_load_end_witness :
    waysFeaturesLoadEnded claim9Idle = claim9Idle
    ∧ (waysFeaturesLoadEnded claim9Active).coordinates = [((0:ℤ), (0:ℤ))]
    ∧ (waysFeaturesLoadEnded claim9Active).fitCount = 0
    ∧ (waysFeaturesLoadEnded claim9Active).candidateLines = [⟨2, [(0,0), (1,0)]⟩] := by
  refine ⟨(claim9_load_end_refresh claim9Idle).1 rfl, ?_, ?_, ?_⟩
  · exact ((claim9_load_end_refresh claim9Active).2 rfl).1
  · exact ((claim9_load_end_refresh claim9Active).2 rfl).2.1
  · have h := ((claim9_load_end_refresh claim9Active).2 rfl).2.2.1
    rw [h]
    decide

end OSMWaySnap

end WaySnap

namespace WaySnap

open LineStringUtils

namespace OSMWaySnap

/-- Claim C5: starting an edit session by clicking a coordinate that is an
exact vertex of the feature (first occurring at index `i`) sets the committed
vertex list to the prefix up to and including index `i`, creates the draft
remainder from the suffix starting at index `i`, and immediately truncates
the live feature's geometry to that prefix. -/
theorem claim5_edit_entry_vertex (st : SnapState) (feature : WayFeature)
    (c : Coord) (i : Nat)
    (hidx : feature.geom.findIdx? (fun v => decide (v = c)) = some i) :
    (enterEditMode st feature c).coordinates = feature.geom.take (i + 1)
    ∧ (enterEditMode st feature c).draftOriginalLine
        = some ⟨st.nextId, feature.geom.drop i⟩
    ∧ (enterEditMode st feature c).activeFeature
        = some ⟨feature.fid, feature.geom.take (i + 1)⟩ := by
  have hfi : findIdxInt feature.geom c = Int.ofNat i := by
    unfold findIdxInt
    rw [hidx]
  have htoNat : ((Int.ofNat i) + 1).toNat = i + 1 := by
    show ((i : ℤ) + 1).toNat = i + 1
    omega
  have hslice : jsSliceFrom feature.geom (Int.ofNat i) = feature.geom.drop i := by
    unfold jsSliceFrom
    rw [if_neg (intOfNat_not_lt_zero i)]
    simp
  simp only [enterEditMode, hfi, htoNat, hslice]
  simp

/-- Idle state used to witness claim C5, whose target source holds the
feature `[A, B, C, D]`. -/
def claim5State : SnapState :=
  { allowEdit := true, allowCreate := true, autoFocus := false, hasMap := false,
    coordinates := [], activeFeature := none, sketchPoint := none, sketchLine := none,
    draftOriginalLine := none, candidateLines := [], candidatePoints := [],
    merging := false, source := [⟨9, [(0,0), (1,0), (2,0), (3,0)]⟩],
    waySource := [], nextId := 50, fitCount := 0 }

/-- Claim C5 witness: entering edit mode on `[A, B, C, D]` at the vertex `C`
yields committed `[A, B, C]` and draft remainder `[C, D]`. -/
theorem claim5_edit_entry_witness :
    (enterEditMode claim5State ⟨9, [(0,0), (1,0), (2,0), (3,0)]⟩ (2,0)).coordinates
        = [((0:ℤ), (0:ℤ)), (1,0), (2,0)]
    ∧ (enterEditMode claim5State ⟨9, [(0,0), (1,0), (2,0), (3,0)]⟩ (2,0)).draftOriginalLine
        = some ⟨50, [((2:ℤ), (0:ℤ)), (3,0)]⟩ := by
  have h := claim5_edit_entry_vertex claim5State ⟨9, [(0,0), (1,0), (2,0), (3,0)]⟩
    (2,0) 2 (by decide)
  constructor
  · rw [h.1]
    decide
  · rw [h.2.1]
    decide

/-- Claim C10: an idle-state click with editing allowed that intersects a
target feature mid-segment (equal to none of its vertices) enters edit mode
with an empty committed vertex list, an empty live geometry, and a draft
remainder holding exactly the feature's last vertex (`findIndex` returns
`-1`, so the prefix is `slice(0, 0)` and the suffix `slice(-1)`). -/
theorem claim10_midsegment_entry (st : SnapState) (c : Coord) (f : WayFeature)
    (hidle : st.coordinates = [])
    (hedit : st.allowEdit = true)
    (hover : (st.source.filter (fun g => lineContains g.geom c)).head? = some f)
    (hnotv : ∀ v ∈ f.geom, v ≠ c) :
    ((handleClick st c).1).coordinates = []
    ∧ ((handleClick st c).1).activeFeature = some ⟨f.fid, []⟩
    ∧ (∃ x, f.geom.getLast? = some x
        ∧ ((handleClick st c).1).draftOriginalLine = some ⟨st.nextId, [x]⟩) := by
  have hcont : lineContains f.geom c = true := by
    have hmem : f ∈ st.source.filter (fun g => lineContains g.geom c) := by
      rcases hl : st.source.filter (fun g => lineContains g.geom c) with _ | ⟨g, rest⟩
      · rw [hl] at hover
        simp at hover
      · rw [hl] at hover
        simp only [List.head?_cons, Option.some.injEq] at hover
        rw [hl, hover]
        simp
    exact (List.mem_filter.mp hmem).2
  have hgeom : f.geom ≠ [] := by
    intro h0
    rw [h0] at hcont
    simp [lineContains] at hcont
  have hfidx : f.geom.findIdx? (fun v => decide (v = c)) = none := by
    rw [List.findIdx?_eq_none_iff]
    intro x hx
    simp [hnotv x hx]
  have hfi : findIdxInt f.geom c = -1 := by
    unfold findIdxInt
    rw [hfidx]
  have hne2 : (st.source.filter (fun g => lineContains g.geom c)).isEmpty = false := by
    rcases hl : st.source.filter (fun g => lineContains g.geom c) with _ | _
    · rw [hl] at hover
      simp at hover
    · rw [hl]
      simp
  have hroute : (handleClick st c).1 = updateFeature (enterEditMode st f c) := by
    unfold handleClick
    rw [hidle]
    simp only [List.isEmpty_nil, if_pos]
    rw [hedit, hne2, hover]
    simp
  have hslice : jsSliceFrom f.geom (-1) = [f.geom.getLast hgeom] := by
    unfold jsSliceFrom
    rw [if_pos (by omega : (-1 : Int) < 0)]
    have : ((Int.ofNat f.geom.length) + (-1)).toNat = f.geom.length - 1 := by
      show (((f.geom.length : ℤ)) + (-1)).toNat = f.geom.length - 1
      omega
    rw [this]
    exact drop_length_sub_one f.geom hgeom
  have hE : enterEditMode st f c
      = { st with coordinates := [],
                  draftOriginalLine := some ⟨st.nextId, [f.geom.getLast hgeom]⟩,
                  waySource := st.waySource ++ [⟨st.nextId, [f.geom.getLast hgeom]⟩],
                  activeFeature := some ⟨f.fid, []⟩,
                  source := st.source.map
                    (fun g => if g.fid = f.fid then ⟨f.fid, []⟩ else g),
                  nextId := st.nextId + 1,
                  merging := false } := by
    simp only [enterEditMode, hfi, hslice]
    norm_num
  obtain ⟨u1, u2, u3, u4, u5⟩ := updateFeature_some (enterEditMode st f c) ⟨f.fid, []⟩
    (by rw [hE])
  rw [hroute]
  refine ⟨?_, ?_, f.geom.getLast hgeom, List.getLast?_eq_getLast f.geom hgeom, ?_⟩
  · rw [u1, hE]
  · rw [u2, hE]
  · rw [u3, hE]

/-- Idle state used to witness claim C10, whose target source holds the
two-vertex feature `[(0,0), (2,0)]`. -/
def claim10State : SnapState :=
  { allowEdit := true, allowCreate := true, autoFocus := false, hasMap := false,
    coordinates := [], activeFeature := none, sketchPoint := none, sketchLine := none,
    draftOriginalLine := none, candidateLines := [], candidatePoints := [],
    merging := false, source := [⟨9, [(0,0), (2,0)]⟩],
    waySource := [], nextId := 70, fitCount := 0 }

/-- Claim C10 witness: clicking the mid-segment coordinate `(1,0)` of
`[(0,0), (2,0)]` yields an empty committed list, an empty live geometry, and
the single-coordinate draft remainder `[(2,0)]`. -/
theorem claim10_midsegment_witness :
    ((handleClick claim10State (1,0)).1).coordinates = []
    ∧ ((handleClick claim10State (1,0)).1).activeFeature = some ⟨9, []⟩
    ∧ ((handleClick claim10State (1,0)).1).draftOriginalLine
        = some ⟨70, [((2:ℤ), (0:ℤ))]⟩ := by
  have h := claim10_midsegment_entry claim10State (1,0) ⟨9, [(0,0), (2,0)]⟩
    (by decide) rfl (by decide) (by decide)
  obtain ⟨h1, h2, x, hx, hd⟩ := h
  refine ⟨h1, h2, ?_⟩
  rw [show x = ((2:ℤ), (0:ℤ)) from by
    rw [show (([((0:ℤ),(0:ℤ)), (2,0)] : List Coord)).getLast? = some ((2:ℤ), (0:ℤ))
      from by decide] at hx
    exact (Option.some.inj hx).symm] at hd
  exact hd

/-- Claim C6: while a session is active, a click at the current tip (the last
coordinate of the active feature) finishes the session: the active feature
becomes absent, the committed list and all sketch-point, sketch-line and
candidate state are cleared, and the draft remainder — when one exists — is
removed from the way source. -/
theorem claim6_finish_on_tip_click (st : SnapState) (c : Coord)
    (hact : st.activeFeature.isSome = true) (hco : st.coordinates ≠ [])
    (hc : c = activeLast st) :
    getActiveFeature ((handleClick st c).1) = none
    ∧ ((handleClick st c).1).coordinates = []
    ∧ ((handleClick st c).1).sketchPoint = none
    ∧ ((handleClick st c).1).sketchLine = none
    ∧ ((handleClick st c).1).candidateLines = []
    ∧ ((handleClick st c).1).candidatePoints = []
    ∧ ((handleClick st c).1).draftOriginalLine = none
    ∧ (∀ d, st.draftOriginalLine = some d →
        ∀ g ∈ ((handleClick st c).1).waySource, g.fid ≠ d.fid) := by
  have hie : st.coordinates.isEmpty = false := by
    rcases hl : st.coordinates with _ | _
    · exact absurd hl hco
    · simp
  have hrw : (handleClick st c).1 = finishEditing st := by
    unfold handleClick
    rw [hie]
    simp only [Bool.false_eq_true, if_false]
    rw [if_pos hc.symm]
  obtain ⟨f1, f2, f3, f4, f5, f6, f7, f8, f9⟩ := finishEditing_spec st
  rw [hrw]
  exact ⟨f1, f2, f3, f4, f5, f6, f7, f9⟩

/-- Active editing state used to witness claim C6: tip `(1,0)`, a staged
draft remainder with identifier `7` in the way source. -/
def claim6State : SnapState :=
  { allowEdit := true, allowCreate := true, autoFocus := false, hasMap := false,
    coordinates := [(0,0), (1,0)],
    activeFeature := some ⟨1, [(0,0), (1,0)]⟩,
    sketchPoint := some (1,0), sketchLine := some [(1,0), (2,0)],
    draftOriginalLine := some ⟨7, [(9,9), (9,10)]⟩,
    candidateLines := [⟨2, [(1,0), (2,0)]⟩], candidatePoints := [(1,0), (2,0)],
    merging := false, source := [⟨1, [(0,0), (1,0)]⟩],
    waySource := [⟨7, [(9,9), (9,10)]⟩, ⟨2, [(1,0), (2,0)]⟩], nextId := 8,
    fitCount := 0 }

/-- Claim C6 witness: clicking the tip `(1,0)` of `claim6State` finishes the
session and the unmerged draft remainder (identifier `7`) disappears from the
way source. -/
theorem claim6_finish_witness :
    getActiveFeature ((handleClick claim6State (1,0)).1) = none
    ∧ ((handleClick claim6State (1,0)).1).draftOriginalLine = none
    ∧ (∀ g ∈ ((handleClick claim6State (1,0)).1).waySource, g.fid ≠ 7) := by
  have h := claim6_finish_on_tip_click claim6State (1,0) rfl (by decide) (by decide)
  refine ⟨h.1, h.2.2.2.2.2.2.1, ?_⟩
  intro g hg
  exact h.2.2.2.2.2.2.2 ⟨7, [(9,9), (9,10)]⟩ rfl g hg

end OSMWaySnap

end WaySnap

namespace WaySnap

/-- The notification kinds declared by `OSMWaySnapEventType` in
`src/event.ts`: `waysnapstart`, `waysnapstartcreate`, `waysnapstartedit`,
`waysnapupdate`, `waysnapend`. -/
inductive WaySnapEventKind where
  | start
  | startCreate
  | startEdit
  | update
  | snapEnd
deriving DecidableEq, Repr

/-- An `OSMWaySnapEvent`: a kind together with the polyline under
construction carried as payload (`event.feature`). -/
structure WaySnapEvent where
  kind : WaySnapEventKind
  feature : List Coord
deriving DecidableEq, Repr

/-- Session-level inputs of the notification machine: starting a creation
session, starting an edit session, committing new vertices, finishing. -/
inductive SessionInput where
  | startCreate (p : List Coord)
  | startEdit (p : List Coord)
  | commit (cs : List Coord)
  | finish
deriving DecidableEq, Repr

/-- Modelled from the spec: the event dispatch sites are missing from the
`handleEvent` / `finishEditing` implementation in this snapshot (only
`src/event.ts` declares the event types and the test suite subscribes to
them).  Per the specification, a session start emits START plus exactly one
of START-CREATE / START-EDIT, every successful commit of new vertices emits
UPDATE, finishing emits END, and the state machine's own guards reject a
second start while a session is active; every notification carries the
polyline under construction. -/
def sessionStep : Option (List Coord) → SessionInput → Option (List Coord) × List WaySnapEvent
  | none, .startCreate p => (some p, [⟨.start, p⟩, ⟨.startCreate, p⟩])
  | none, .startEdit p => (some p, [⟨.start, p⟩, ⟨.startEdit, p⟩])
  | none, .commit _ => (none, [])
  | none, .finish => (none, [])
  | some f, .commit cs => (some (f ++ cs), [⟨.update, f ++ cs⟩])
  | some f, .finish => (none, [⟨.snapEnd, f⟩])
  | some f, .startCreate _ => (some f, [])
  | some f, .startEdit _ => (some f, [])

/-- Run of the notification machine over a list of session inputs,
concatenating the emitted events. -/
def sessionRun (s : Option (List Coord)) : List SessionInput → List WaySnapEvent
  | [] => []
  | i :: rest =>
    let step := sessionStep s i
    step.2 ++ sessionRun step.1 rest

/-- Events of an active session consuming only commits and one final finish:
one UPDATE per commit, then exactly one END. -/
lemma sessionRun_active (p : List Coord) :
    ∀ cs : List (List Coord),
    ((sessionRun (some p) (cs.map SessionInput.commit ++ [SessionInput.finish])).countP
        (fun e => decide (e.kind = WaySnapEventKind.startCreate)) = 0)
    ∧ ((sessionRun (some p) (cs.map SessionInput.commit ++ [SessionInput.finish])).countP
        (fun e => decide (e.kind = WaySnapEventKind.startEdit)) = 0)
    ∧ ((sessionRun (some p) (cs.map SessionInput.commit ++ [SessionInput.finish])).countP
        (fun e => decide (e.kind = WaySnapEventKind.update)) = cs.length)
    ∧ ((sessionRun (some p) (cs.map SessionInput.commit ++ [SessionInput.finish])).countP
        (fun e => decide (e.kind = WaySnapEventKind.snapEnd)) = 1) := by
  intro cs
  induction cs generalizing p with
  | nil => simp [sessionRun, sessionStep]
  | cons c rest ih =>
    have hstep : sessionRun (some p)
        ((c :: rest).map SessionInput.commit ++ [SessionInput.finish])
        = ⟨WaySnapEventKind.update, p ++ c⟩ ::
          sessionRun (some (p ++ c)) (rest.map SessionInput.commit ++ [SessionInput.finish]) := by
      simp [sessionRun, sessionStep]
    obtain ⟨i1, i2, i3, i4⟩ := ih (p ++ c)
    rw [hstep]
    refine ⟨?_, ?_, ?_, ?_⟩
    · simpa using i1
    · simpa using i2
    · simpa using i3
    · simpa using i4

/-- Claim C7 (settled against the spec-modelled notification machine): for
every session — started once as creation or edit, committing any number of
times, then finishing — exactly one of START-CREATE / START-EDIT fires
(matching the session kind), UPDATE fires once per commit, and END fires
exactly once. -/
theorem claim7_session_events (isEdit : Bool) (p : List Coord)
    (cs : List (List Coord)) :
    ((sessionRun none
        ((if isEdit then SessionInput.startEdit p else SessionInput.startCreate p) ::
          (cs.map SessionInput.commit ++ [SessionInput.finish]))).countP
        (fun e => decide (e.kind = WaySnapEventKind.startCreate))
      + (sessionRun none
        ((if isEdit then SessionInput.startEdit p else SessionInput.startCreate p) ::
          (cs.map SessionInput.commit ++ [SessionInput.finish]))).countP
        (fun e => decide (e.kind = WaySnapEventKind.startEdit)) = 1)
    ∧ ((sessionRun none
        ((if isEdit then SessionInput.startEdit p else SessionInput.startCreate p) ::
          (cs.map SessionInput.commit ++ [SessionInput.finish]))).countP
        (fun e => decide (e.kind = WaySnapEventKind.startEdit))
      = if isEdit then 1 else 0)
    ∧ ((sessionRun none
        ((if isEdit then SessionInput.startEdit p else SessionInput.startCreate p) ::
          (cs.map SessionInput.commit ++ [SessionInput.finish]))).countP
        (fun e => decide (e.kind = WaySnapEventKind.update)) = cs.length)
    ∧ ((sessionRun none
        ((if isEdit then SessionInput.startEdit p else SessionInput.startCreate p) ::
          (cs.map SessionInput.commit ++ [SessionInput.finish]))).countP
        (fun e => decide (e.kind = WaySnapEventKind.snapEnd)) = 1) := by
  obtain ⟨a1, a2, a3, a4⟩ := sessionRun_active p cs
  cases isEdit
  · have hstep : sessionRun none
        (SessionInput.startCreate p :: (cs.map SessionInput.commit ++ [SessionInput.finish]))
        = ⟨WaySnapEventKind.start, p⟩ :: ⟨WaySnapEventKind.startCreate, p⟩ ::
          sessionRun (some p) (cs.map SessionInput.commit ++ [SessionInput.finish]) := by
      simp [sessionRun, sessionStep]
    simp only [Bool.false_eq_true, if_false, hstep]
    refine ⟨?_, ?_, ?_, ?_⟩
    · simp [List.countP_cons, a1, a2]
    · simp [List.countP_cons, a2]
    · simp [List.countP_cons, a3]
    · simp [List.countP_cons, a4]
  · have hstep : sessionRun none
        (SessionInput.startEdit p :: (cs.map SessionInput.commit ++ [SessionInput.finish]))
        = ⟨WaySnapEventKind.start, p⟩ :: ⟨WaySnapEventKind.startEdit, p⟩ ::
          sessionRun (some p) (cs.map SessionInput.commit ++ [SessionInput.finish]) := by
      simp [sessionRun, sessionStep]
    simp only [if_true, hstep]
    refine ⟨?_, ?_, ?_, ?_⟩
    · simp [List.countP_cons, a1, a2]
    · simp [List.countP_cons, a2]
    · simp [List.countP_cons, a3]
    · simp [List.countP_cons, a4]

end WaySnap
